import Mathlib

/-!
Verification of the RSI-under-threshold scanner (`src/main.py`).

The indicator engine (`calculate_precise_rsi`) operates on a pandas
`Series`; we embed a pandas series of floats as `List (Option ℚ)`, where
`none` models the missing value (NaN) that `Series.diff()` places at
position 0, and rationals stand for the IEEE doubles (every identity and
bound proved here involves only exact arithmetic on the inputs at hand).
HTTP calls are embedded by passing the response — or a transport-level
exception — as an explicit `Except` argument; Python exceptions propagate
as the `Except.error` branch.
-/

/-- `RSI_PERIOD = 14` (src/main.py line 56). -/
def RSI_PERIOD : ℕ := 14

/-- `RSI_THRESHOLD = 30` (src/main.py line 55). -/
def RSI_THRESHOLD : ℚ := 30

/-- `prices.diff()` (line 80): a series of the same length as `prices`,
with NaN (`none`) at position 0 and `prices[i] - prices[i-1]` at `i ≥ 1`. -/
def seriesDiff (prices : List ℚ) : List (Option ℚ) :=
  match prices with
  | [] => []
  | _ :: _ => none :: List.zipWith (fun prev next => some (next - prev)) prices prices.tail

/-- `delta.clip(lower=0)` (line 83): NaN is preserved, numbers are clamped below at 0. -/
def clipLower0 (d : Option ℚ) : Option ℚ := Option.map (fun x => max x 0) d

/-- `-delta.clip(upper=0)` (line 84): NaN preserved; numbers become `max (-x) 0`. -/
def negClipUpper0 (d : Option ℚ) : Option ℚ := Option.map (fun x => max (-x) 0) d

/-- The code's `gain` series (line 83). -/
def gainSeries (prices : List ℚ) : List (Option ℚ) :=
  (seriesDiff prices).map clipLower0

/-- The code's `loss` series (line 84). -/
def lossSeries (prices : List ℚ) : List (Option ℚ) :=
  (seriesDiff prices).map negClipUpper0

/-- pandas `Series.mean()` with the default `skipna=True`: the sum of the
numeric entries divided by their count.  (The all-NaN case, which pandas
maps to NaN, is unreachable in the program: the series handed to the mean
always holds at least `RSI_PERIOD - 1 = 13` numbers.) -/
def seriesMean (xs : List (Option ℚ)) : ℚ :=
  (xs.filterMap id).sum / ((xs.filterMap id).length : ℚ)

/-- `series.iloc[i]` as a total function; every access the program performs
is in range and lands on a numeric entry, so the default is never hit. -/
def iloc (xs : List (Option ℚ)) (i : ℕ) : ℚ :=
  ((xs.get? i).getD none).getD 0

/-- `avg_gain = gain[:period].mean()` (line 87). -/
def avg_gain_seed (prices : List ℚ) (period : ℕ) : ℚ :=
  seriesMean ((gainSeries prices).take period)

/-- `avg_loss = loss[:period].mean()` (line 88). -/
def avg_loss_seed (prices : List ℚ) (period : ℕ) : ℚ :=
  seriesMean ((lossSeries prices).take period)

/-- One pass of the loop body (lines 97-106): with `alpha = 1/period`,
`avg = current * alpha + previous * (1 - alpha)` for gain and loss;
`gains[-1]`/`losses[-1]` is exactly the accumulated pair. -/
def emaStepPair (prices : List ℚ) (period : ℕ) (st : ℚ × ℚ) (i : ℕ) : ℚ × ℚ :=
  (iloc (gainSeries prices) i * (1 / (period : ℚ)) + st.1 * (1 - 1 / (period : ℚ)),
   iloc (lossSeries prices) i * (1 / (period : ℚ)) + st.2 * (1 - 1 / (period : ℚ)))

/-- The final `(gains[-1], losses[-1])` pair after the
`for i in range(period, len(prices))` loop (lines 97-106). -/
def emaFold (prices : List ℚ) (period : ℕ) : ℚ × ℚ :=
  (List.range' period (prices.length - period)).foldl (emaStepPair prices period)
    (avg_gain_seed prices period, avg_loss_seed prices period)

/-- The last entry of `rs = np.divide(gains, losses, out=np.zeros_like(gains),
where=losses != 0)` (line 111): where the loss average is 0 the output
array keeps its prefilled 0. -/
def rs_final (prices : List ℚ) (period : ℕ) : ℚ :=
  let a := emaFold prices period
  if a.2 = 0 then 0 else a.1 / a.2

/-- `calculate_precise_rsi` (lines 79-116): returns `rsi[-1]`,
i.e. `100 - 100 / (1 + rs)` at the last index. -/
def calculate_precise_rsi (prices : List ℚ) (period : ℕ) : ℚ :=
  100 - 100 / (1 + rs_final prices period)

/-- The gain sequence as the spec words it: positive parts of the successive
differences of consecutive closes, one element shorter than the input. -/
def specGainSeq (prices : List ℚ) : List ℚ :=
  List.zipWith (fun prev next => max (next - prev) 0) prices prices.tail

/-- The loss sequence as the spec words it: absolute values of the negative
parts of the successive differences, one element shorter than the input. -/
def specLossSeq (prices : List ℚ) : List ℚ :=
  List.zipWith (fun prev next => max (prev - next) 0) prices prices.tail

/-- The smoothing update exactly as the spec writes it:
`avg = gain[i]/period + avg*(period-1)/period`. -/
def specStep (period : ℕ) (avg g : ℚ) : ℚ :=
  g / (period : ℚ) + avg * ((period : ℚ) - 1) / (period : ℚ)

/-- The seed exactly as the claim words it: the arithmetic mean of the first
`period` values of the (one-element-shorter) gain sequence. -/
def claimedSeedGain (prices : List ℚ) (period : ℕ) : ℚ :=
  ((specGainSeq prices).take period).sum / (period : ℚ)

/-- Python `str.strip()` over the characters of a string: drop leading and
trailing whitespace.  (Embedded structurally over `List Char` so that it
evaluates; Lean's own `String.trim` is defined by well-founded recursion
on byte positions and does not reduce.) -/
def pyStrip (s : List Char) : List Char :=
  ((s.dropWhile Char.isWhitespace).reverse.dropWhile Char.isWhitespace).reverse

/-- Python `str.upper()`: uppercase every character. -/
def pyUpper (s : List Char) : List Char := s.map Char.toUpper

/-- A record of the exchangeInfo listing; the two fields the code reads
(lines 130-131). -/
structure SymbolInfo where
  symbol : List Char
  status : String

/-- `get_usdt_pairs` (lines 119-143).  The cache file, when it exists, is
passed as its list of raw lines (`f.readlines()` keeps the line breaks;
each line goes through `line.strip()`).  The listing response is passed as
`Except`: `Except.error` is a transport-level exception of `requests.get`,
which the function does not catch and therefore re-raises; `Except.ok`
carries the HTTP status code and the decoded symbol records. -/
def get_usdt_pairs (cache : Option (List (List Char)))
    (resp : Except Unit (ℕ × List SymbolInfo)) : Except Unit (List (List Char)) :=
  match cache with
  | some fileLines => Except.ok (fileLines.map pyStrip)
  | none =>
    match resp with
    | Except.error e => Except.error e
    | Except.ok (status, data) =>
      if status = 200 then
        Except.ok ((data.filter
          (fun s => ("USDT".toList).isSuffixOf s.symbol && s.status == "TRADING")).map
            SymbolInfo.symbol)
      else
        Except.ok []

/-- `get_current_price` (lines 146-153): on HTTP 200 the price, otherwise a
diagnostic is printed and `None` returned; a transport exception is not
caught here and re-raises (`Except.error`). -/
def get_current_price (resp : Except Unit (ℕ × ℚ)) : Except Unit (Option ℚ) :=
  match resp with
  | Except.error e => Except.error e
  | Except.ok (status, price) =>
    if status = 200 then Except.ok (some price) else Except.ok none

/-- `fetch_and_calculate_rsi` (lines 156-177): `Except.error` is an uncaught
transport exception; on HTTP 200 the guard `if not data or len(data) <
RSI_PERIOD` skips the symbol (`None`), else the RSI of the close prices is
returned; non-200 prints a diagnostic and returns `None`. -/
def fetch_and_calculate_rsi (resp : Except Unit (ℕ × List ℚ)) : Except Unit (Option ℚ) :=
  match resp with
  | Except.error e => Except.error e
  | Except.ok (status, close_prices) =>
    if status = 200 then
      if close_prices = [] ∨ close_prices.length < RSI_PERIOD then Except.ok none
      else Except.ok (some (calculate_precise_rsi close_prices RSI_PERIOD))
    else Except.ok none

/-- What one worker emits for one symbol: a match line, an error diagnostic,
or nothing. -/
inductive Output where
  | matchLine (symbol : String) (rsi price : ℚ)
  | errorLine (symbol : String)
  | silent
deriving DecidableEq

/-- `process_symbol` (lines 180-188).  Any exception inside the `try` block
is caught by the blanket `except` and printed as an error line.  In
particular, when the RSI is below the threshold but `get_current_price`
returned `None`, the f-string `{current_price:.4f}` raises `TypeError`
(format spec `.4f` applied to `None`), so the match line is NOT printed:
the `except` branch prints the error diagnostic instead. -/
def process_symbol (symbol : String) (klinesResp : Except Unit (ℕ × List ℚ))
    (priceResp : Except Unit (ℕ × ℚ)) : Output :=
  match fetch_and_calculate_rsi klinesResp with
  | Except.error _ => Output.errorLine symbol
  | Except.ok none => Output.silent
  | Except.ok (some last_rsi) =>
    if last_rsi < RSI_THRESHOLD then
      match get_current_price priceResp with
      | Except.error _ => Output.errorLine symbol
      | Except.ok none => Output.errorLine symbol
      | Except.ok (some current_price) => Output.matchLine symbol last_rsi current_price
    else Output.silent

/-- The spot-price fetch "fails" when it does not deliver a price: non-200
status (`None` result) or transport exception. -/
def priceFetchFails (resp : Except Unit (ℕ × ℚ)) : Bool :=
  match get_current_price resp with
  | Except.ok (some _) => false
  | _ => true

/-- Observer: does the worker's output report a match? -/
def emitsMatch : Output → Bool
  | Output.matchLine _ _ _ => true
  | _ => false

/-- The two ways `find_low_rsi_coins` can run. -/
inductive ScanMode where
  | singleCoin (symbol : List Char)
  | fullScan
deriving DecidableEq

/-- The dispatch decision of `find_low_rsi_coins` (lines 191-203):
`target_coin = os.getenv("SYMBOL", "").strip().upper()`; Python's truthiness
test `if target_coin:` is true exactly for a non-empty string, which is then
processed as a single symbol; otherwise the full universe is scanned. -/
def find_low_rsi_coins_mode (envSYMBOL : Option (List Char)) : ScanMode :=
  let target_coin := pyUpper (pyStrip (envSYMBOL.getD []))
  if target_coin = [] then ScanMode.fullScan else ScanMode.singleCoin target_coin

/-- 15 strictly increasing closes: no decrease anywhere, in particular none
after the seed window. -/
def p15up : List ℚ := [1, 2, 3, 4, 5, 6, 7, 8, 9, 10, 11, 12, 13, 14, 15]

/-- 15 closes whose only move is the first difference (+1). -/
def p15c : List ℚ := [0, 1, 1, 1, 1, 1, 1, 1, 1, 1, 1, 1, 1, 1, 1]

/-- 14 flat closes: length exactly `RSI_PERIOD`. -/
def p14flat : List ℚ := [1, 1, 1, 1, 1, 1, 1, 1, 1, 1, 1, 1, 1, 1]

/-- 20 strictly decreasing closes: all losses, RSI 0, below the threshold. -/
def p20down : List ℚ :=
  [100, 99, 98, 97, 96, 95, 94, 93, 92, 91, 90, 89, 88, 87, 86, 85, 84, 83, 82, 81]

lemma gainSeries_cons (p : ℚ) (ps : List ℚ) :
    gainSeries (p :: ps) = none :: (specGainSeq (p :: ps)).map some := by
  unfold gainSeries seriesDiff specGainSeq
  simp [clipLower0, List.map_zipWith]

lemma lossSeries_cons (p : ℚ) (ps : List ℚ) :
    lossSeries (p :: ps) = none :: (specLossSeq (p :: ps)).map some := by
  unfold lossSeries seriesDiff specLossSeq
  simp [negClipUpper0, List.map_zipWith, neg_sub]

lemma specGainSeq_length (prices : List ℚ) :
    (specGainSeq prices).length = prices.length - 1 := by
  cases prices with
  | nil => rfl
  | cons p ps =>
    unfold specGainSeq
    simp [List.length_zipWith]

lemma specLossSeq_length (prices : List ℚ) :
    (specLossSeq prices).length = prices.length - 1 := by
  cases prices with
  | nil => rfl
  | cons p ps =>
    unfold specLossSeq
    simp [List.length_zipWith]

lemma gainSeries_some_nonneg {prices : List ℚ} {o : Option ℚ} (ho : o ∈ gainSeries prices)
    {x : ℚ} (hx : o = some x) : 0 ≤ x := by
  rcases List.mem_map.mp ho with ⟨d, _, hd⟩
  subst hd
  rcases d with _ | v
  · simp [clipLower0] at hx
  · simp [clipLower0] at hx
    subst hx
    exact le_max_right v 0

lemma lossSeries_some_nonneg {prices : List ℚ} {o : Option ℚ} (ho : o ∈ lossSeries prices)
    {x : ℚ} (hx : o = some x) : 0 ≤ x := by
  rcases List.mem_map.mp ho with ⟨d, _, hd⟩
  subst hd
  rcases d with _ | v
  · simp [negClipUpper0] at hx
  · simp [negClipUpper0] at hx
    subst hx
    exact le_max_right (-v) 0

lemma iloc_gainSeries_nonneg (prices : List ℚ) (i : ℕ) :
    0 ≤ iloc (gainSeries prices) i := by
  unfold iloc
  rcases h : (gainSeries prices).get? i with _ | o
  · simp
  · rcases o with _ | x
    · simp
    · simpa using gainSeries_some_nonneg (List.get?_mem h) rfl

lemma iloc_lossSeries_nonneg (prices : List ℚ) (i : ℕ) :
    0 ≤ iloc (lossSeries prices) i := by
  unfold iloc
  rcases h : (lossSeries prices).get? i with _ | o
  · simp
  · rcases o with _ | x
    · simp
    · simpa using lossSeries_some_nonneg (List.get?_mem h) rfl

lemma avg_gain_seed_nonneg (prices : List ℚ) (period : ℕ) :
    0 ≤ avg_gain_seed prices period := by
  unfold avg_gain_seed seriesMean
  refine div_nonneg (List.sum_nonneg ?_) (by positivity)
  intro x hx
  rcases List.mem_filterMap.mp hx with ⟨o, ho, hox⟩
  exact gainSeries_some_nonneg (List.take_subset _ _ ho) (by simpa using hox)

lemma avg_loss_seed_nonneg (prices : List ℚ) (period : ℕ) :
    0 ≤ avg_loss_seed prices period := by
  unfold avg_loss_seed seriesMean
  refine div_nonneg (List.sum_nonneg ?_) (by positivity)
  intro x hx
  rcases List.mem_filterMap.mp hx with ⟨o, ho, hox⟩
  exact lossSeries_some_nonneg (List.take_subset _ _ ho) (by simpa using hox)

lemma one_sub_alpha_nonneg (period : ℕ) : 0 ≤ 1 - 1 / (period : ℚ) := by
  rcases Nat.eq_zero_or_pos period with h | h
  · simp [h]
  · have h1 : (1 : ℚ) ≤ (period : ℚ) := by exact_mod_cast h
    have h2 : 1 / (period : ℚ) ≤ 1 := by
      rw [div_le_one (by linarith)]
      exact h1
    linarith

lemma foldl_emaStep_nonneg (prices : List ℚ) (period : ℕ) :
    ∀ (l : List ℕ) (st : ℚ × ℚ), 0 ≤ st.1 → 0 ≤ st.2 →
      0 ≤ (l.foldl (emaStepPair prices period) st).1 ∧
        0 ≤ (l.foldl (emaStepPair prices period) st).2 := by
  intro l
  induction l with
  | nil => exact fun st h1 h2 => ⟨h1, h2⟩
  | cons i t ih =>
    intro st h1 h2
    have ha : (0 : ℚ) ≤ 1 / (period : ℚ) := by positivity
    have hb := one_sub_alpha_nonneg period
    refine ih _ ?_ ?_
    · exact add_nonneg (mul_nonneg (iloc_gainSeries_nonneg prices i) ha) (mul_nonneg h1 hb)
    · exact add_nonneg (mul_nonneg (iloc_lossSeries_nonneg prices i) ha) (mul_nonneg h2 hb)

lemma emaFold_nonneg (prices : List ℚ) (period : ℕ) :
    0 ≤ (emaFold prices period).1 ∧ 0 ≤ (emaFold prices period).2 := by
  unfold emaFold
  exact foldl_emaStep_nonneg prices period _ _
    (avg_gain_seed_nonneg prices period) (avg_loss_seed_nonneg prices period)

lemma rs_final_nonneg (prices : List ℚ) (period : ℕ) : 0 ≤ rs_final prices period := by
  unfold rs_final
  obtain ⟨h1, h2⟩ := emaFold_nonneg prices period
  dsimp only
  split
  · exact le_refl 0
  · exact div_nonneg h1 h2

lemma rsi_bounds (prices : List ℚ) (period : ℕ) :
    0 ≤ calculate_precise_rsi prices period ∧ calculate_precise_rsi prices period ≤ 100 := by
  have h := rs_final_nonneg prices period
  unfold calculate_precise_rsi
  constructor
  · have h2 : 100 / (1 + rs_final prices period) ≤ 100 :=
      div_le_self (by norm_num) (by linarith)
    linarith
  · have h3 : (0 : ℚ) ≤ 100 / (1 + rs_final prices period) :=
      div_nonneg (by norm_num) (by linarith)
    linarith

lemma foldl_ext {α β : Type} (f g : β → α → β) (h : ∀ b a, f b a = g b a) :
    ∀ (l : List α) (b : β), l.foldl f b = l.foldl g b := by
  intro l
  induction l with
  | nil => intro b; rfl
  | cons a t ih => intro b; simp only [List.foldl_cons, h]; exact ih _

lemma emaStepPair_eq_specStep (prices : List ℚ) (st : ℚ × ℚ) (i : ℕ) :
    emaStepPair prices RSI_PERIOD st i =
      (specStep RSI_PERIOD st.1 (iloc (gainSeries prices) i),
       specStep RSI_PERIOD st.2 (iloc (lossSeries prices) i)) := by
  unfold emaStepPair specStep RSI_PERIOD
  norm_num [Prod.mk.injEq]
  constructor <;> ring

lemma filterMap_id_map_some (l : List ℚ) : (l.map some).filterMap id = l := by
  rw [List.filterMap_map]
  simp [Function.comp, List.filterMap_some]

lemma gainSeries_filterMap_id (prices : List ℚ) :
    (gainSeries prices).filterMap id = specGainSeq prices := by
  cases prices with
  | nil => rfl
  | cons p ps =>
    rw [gainSeries_cons]
    simp [List.filterMap_cons, filterMap_id_map_some]

lemma lossSeries_filterMap_id (prices : List ℚ) :
    (lossSeries prices).filterMap id = specLossSeq prices := by
  cases prices with
  | nil => rfl
  | cons p ps =>
    rw [lossSeries_cons]
    simp [List.filterMap_cons, filterMap_id_map_some]

lemma avg_gain_seed_eq_spec (prices : List ℚ) (h : RSI_PERIOD ≤ prices.length) :
    avg_gain_seed prices RSI_PERIOD =
      ((specGainSeq prices).take (RSI_PERIOD - 1)).sum / ((RSI_PERIOD - 1 : ℕ) : ℚ) := by
  cases prices with
  | nil => simp [RSI_PERIOD] at h
  | cons p ps =>
    have h13 : RSI_PERIOD - 1 ≤ (specGainSeq (p :: ps)).length := by
      rw [specGainSeq_length]
      simp only [List.length_cons] at h ⊢
      omega
    unfold avg_gain_seed seriesMean
    rw [gainSeries_cons]
    have htake : (none :: (specGainSeq (p :: ps)).map some).take RSI_PERIOD
        = none :: ((specGainSeq (p :: ps)).map some).take (RSI_PERIOD - 1) := rfl
    rw [htake, ← List.map_take]
    simp only [List.filterMap_cons, id_eq, filterMap_id_map_some]
    rw [List.length_take, Nat.min_eq_left h13]

lemma avg_loss_seed_eq_spec (prices : List ℚ) (h : RSI_PERIOD ≤ prices.length) :
    avg_loss_seed prices RSI_PERIOD =
      ((specLossSeq prices).take (RSI_PERIOD - 1)).sum / ((RSI_PERIOD - 1 : ℕ) : ℚ) := by
  cases prices with
  | nil => simp [RSI_PERIOD] at h
  | cons p ps =>
    have h13 : RSI_PERIOD - 1 ≤ (specLossSeq (p :: ps)).length := by
      rw [specLossSeq_length]
      simp only [List.length_cons] at h ⊢
      omega
    unfold avg_loss_seed seriesMean
    rw [lossSeries_cons]
    have htake : (none :: (specLossSeq (p :: ps)).map some).take RSI_PERIOD
        = none :: ((specLossSeq (p :: ps)).map some).take (RSI_PERIOD - 1) := rfl
    rw [htake, ← List.map_take]
    simp only [List.filterMap_cons, id_eq, filterMap_id_map_some]
    rw [List.length_take, Nat.min_eq_left h13]

/-- C1: the claim says a series with no decreases after the seed window
yields exactly 100.  The code does the opposite: on the strictly increasing
series `p15up` every loss is 0, so the final loss average is exactly 0, the
`np.divide` guard forces `rs = 0`, and the returned value is
`100 - 100/(1+0) = 0`, not 100.  (No division fault occurs — the function is
total — but the value contradicts the claim and the code's own stated
purpose of flagging oversold symbols.) -/
theorem c1_zero_loss_code_bug :
    calculate_precise_rsi p15up RSI_PERIOD = 0 ∧
      calculate_precise_rsi p15up RSI_PERIOD ≠ 100 := by
  have h : calculate_precise_rsi p15up RSI_PERIOD = 0 := by
    norm_num [p15up, calculate_precise_rsi, rs_final, emaFold, emaStepPair, avg_gain_seed,
      avg_loss_seed, seriesMean, gainSeries, lossSeries, seriesDiff, clipLower0, negClipUpper0,
      iloc, RSI_PERIOD, List.filterMap_cons, List.range']
  refine ⟨h, ?_⟩
  rw [h]
  norm_num

/-- C2 counterexample: on `p15c` the code's seed (`gain[:14].mean()`, whose
slice holds the NaN at position 0 plus thirteen numbers, so pandas divides
by 13) is `1/13`, while the claimed seed — the mean of the first 14 values
of the one-element-shorter gain sequence — is `1/14`. -/
theorem c2_seed_counterexample :
    avg_gain_seed p15c RSI_PERIOD ≠ claimedSeedGain p15c RSI_PERIOD := by
  norm_num [p15c, avg_gain_seed, claimedSeedGain, specGainSeq, seriesMean, gainSeries,
    seriesDiff, clipLower0, RSI_PERIOD, List.filterMap_cons]

/-- C2 (amended): the gain/loss sequences are the positive part and the
absolute negative part of the successive differences of consecutive closes,
each one element shorter than the input; but the accumulators are seeded as
the arithmetic mean of the first `period - 1` (not `period`) values of those
sequences — `Series.diff()` puts a NaN in front, the `[:period]` slice
therefore holds only `period - 1` numbers, and the NaN-skipping mean divides
by `period - 1`. -/
theorem c2_seed_amended : ∀ prices : List ℚ, RSI_PERIOD ≤ prices.length →
    (gainSeries prices).filterMap id = specGainSeq prices ∧
    (lossSeries prices).filterMap id = specLossSeq prices ∧
    (specGainSeq prices).length = prices.length - 1 ∧
    (specLossSeq prices).length = prices.length - 1 ∧
    avg_gain_seed prices RSI_PERIOD
      = ((specGainSeq prices).take (RSI_PERIOD - 1)).sum / ((RSI_PERIOD - 1 : ℕ) : ℚ) ∧
    avg_loss_seed prices RSI_PERIOD
      = ((specLossSeq prices).take (RSI_PERIOD - 1)).sum / ((RSI_PERIOD - 1 : ℕ) : ℚ) :=
  fun prices h =>
    ⟨gainSeries_filterMap_id prices, lossSeries_filterMap_id prices,
      specGainSeq_length prices, specLossSeq_length prices,
      avg_gain_seed_eq_spec prices h, avg_loss_seed_eq_spec prices h⟩

/-- C2 amended, instantiated at the concrete series `p15c`. -/
theorem c2_seed_amended_witness :
    RSI_PERIOD ≤ p15c.length ∧
      avg_gain_seed p15c RSI_PERIOD
        = ((specGainSeq p15c).take (RSI_PERIOD - 1)).sum / ((RSI_PERIOD - 1 : ℕ) : ℚ) :=
  ⟨by decide, (c2_seed_amended p15c (by decide)).2.2.2.2.1⟩

/-- C3: the accumulator pair the code computes is exactly the sequential
left fold, over the loop indices `i ∈ [period, len(prices))` of the code's
gain/loss series, of the recurrence the spec writes:
`avg = gain[i]/period + avg*(period-1)/period`, i.e. an EMA with smoothing
factor `alpha = 1/period`, starting from the seeded averages. -/
theorem c3_smoothing_recurrence : ∀ prices : List ℚ,
    emaFold prices RSI_PERIOD =
      (List.range' RSI_PERIOD (prices.length - RSI_PERIOD)).foldl
        (fun st i => (specStep RSI_PERIOD st.1 (iloc (gainSeries prices) i),
                      specStep RSI_PERIOD st.2 (iloc (lossSeries prices) i)))
        (avg_gain_seed prices RSI_PERIOD, avg_loss_seed prices RSI_PERIOD) := by
  intro prices
  unfold emaFold
  exact foldl_ext _ _ (fun st i => emaStepPair_eq_specStep prices st i) _ _

/-- C4 counterexample: `p14flat` has length exactly `RSI_PERIOD = 14`, i.e.
`len(series) <= period`, yet the guard `len(data) < RSI_PERIOD` lets it
through and an indicator value is produced — the claim says this length
must fail with InsufficientData. -/
theorem c4_counterexample :
    p14flat.length ≤ RSI_PERIOD ∧
      fetch_and_calculate_rsi (Except.ok (200, p14flat)) =
        Except.ok (some (calculate_precise_rsi p14flat RSI_PERIOD)) ∧
      fetch_and_calculate_rsi (Except.ok (200, p14flat)) ≠ Except.ok none := by
  refine ⟨by decide, rfl, fun h => Option.noConfusion (Except.ok.inj h)⟩

/-- C4 (amended): on a successful (HTTP 200) series fetch, the symbol is
skipped with no indicator value exactly when `len(series) < period`
(strictly); a series of length exactly `period` is accepted and produces a
value. -/
theorem c4_insufficient_data_amended : ∀ close_prices : List ℚ,
    fetch_and_calculate_rsi (Except.ok (200, close_prices)) = Except.ok none
      ↔ close_prices.length < RSI_PERIOD := by
  intro data
  show (if data = [] ∨ data.length < RSI_PERIOD then (Except.ok none : Except Unit (Option ℚ))
      else Except.ok (some (calculate_precise_rsi data RSI_PERIOD))) = Except.ok none
    ↔ data.length < RSI_PERIOD
  split
  next h =>
    constructor
    · intro _
      rcases h with h | h
      · subst h
        simp [RSI_PERIOD]
      · exact h
    · intro _
      rfl
  next h =>
    push_neg at h
    constructor
    · intro hh
      exact absurd (Except.ok.inj hh) (by simp)
    · intro hlen
      exact absurd hlen (Nat.not_lt.mpr h.2)

/-- C5: whenever the final loss average is 0, `np.divide(..., out=zeros,
where=losses != 0)` leaves `rs = 0` (not infinity), no division fault
occurs, and the final indicator value is a well-defined number in
`[0, 100]` — no NaN/Inf is propagated. -/
theorem c5_division_guard : ∀ (prices : List ℚ) (period : ℕ),
    (emaFold prices period).2 = 0 →
      rs_final prices period = 0 ∧
        0 ≤ calculate_precise_rsi prices period ∧
          calculate_precise_rsi prices period ≤ 100 := by
  intro prices period h
  refine ⟨?_, rsi_bounds prices period⟩
  unfold rs_final
  simp [h]

/-- C5, instantiated at `p15up`, whose loss average is exactly 0. -/
theorem c5_division_guard_witness :
    (emaFold p15up RSI_PERIOD).2 = 0 ∧ rs_final p15up RSI_PERIOD = 0 := by
  have h : (emaFold p15up RSI_PERIOD).2 = 0 := by
    norm_num [p15up, emaFold, emaStepPair, avg_gain_seed, avg_loss_seed, seriesMean,
      gainSeries, lossSeries, seriesDiff, clipLower0, negClipUpper0, iloc, RSI_PERIOD,
      List.filterMap_cons, List.range']
  exact ⟨h, (c5_division_guard p15up RSI_PERIOD h).1⟩

/-- C6: for every series longer than the period, the final indicator value
`100 - 100/(1 + rs)` lies in `[0, 100]`. -/
theorem c6_range_invariant : ∀ prices : List ℚ, RSI_PERIOD < prices.length →
    0 ≤ calculate_precise_rsi prices RSI_PERIOD ∧
      calculate_precise_rsi prices RSI_PERIOD ≤ 100 :=
  fun prices _ => rsi_bounds prices RSI_PERIOD

/-- C6, instantiated at the 20-element series `p20down`. -/
theorem c6_range_invariant_witness :
    RSI_PERIOD < p20down.length ∧
      (0 ≤ calculate_precise_rsi p20down RSI_PERIOD ∧
        calculate_precise_rsi p20down RSI_PERIOD ≤ 100) :=
  ⟨by decide, c6_range_invariant p20down (by decide)⟩

/-- C7 counterexample: with no cache file, a transport-level error of the
listing call is NOT caught inside `get_usdt_pairs` — the exception
propagates (and `find_low_rsi_coins` has no handler for it), so the
function does not return an empty set in that case. -/
theorem c7_counterexample :
    get_usdt_pairs none (Except.error ()) = Except.error () ∧
      get_usdt_pairs none (Except.error ()) ≠ Except.ok [] :=
  ⟨rfl, fun h => Except.noConfusion h⟩

/-- C7 (amended): with no cache file, a listing response with a non-success
HTTP status makes `get_usdt_pairs` log a diagnostic and return the empty
list, and the process keeps running; but a transport-level exception
(connection error) is not caught and propagates out of the function. -/
theorem c7_universe_failure_amended : ∀ (status : ℕ) (data : List SymbolInfo),
    status ≠ 200 → get_usdt_pairs none (Except.ok (status, data)) = Except.ok [] := by
  intro status data h
  simp [get_usdt_pairs, h]

/-- C7 amended, instantiated at HTTP status 500. -/
theorem c7_universe_failure_amended_witness :
    (500 : ℕ) ≠ 200 ∧ get_usdt_pairs none (Except.ok (500, [])) = Except.ok [] :=
  ⟨by decide, c7_universe_failure_amended 500 [] (by decide)⟩

/-- C8: when a cache file exists, `get_usdt_pairs` returns its lines (with
the line breaks stripped) and never looks at the listing endpoint: the
result is the same whatever the remote response `r1`/`r2` would have been,
in particular for the response-independent scenario file holding
`BTCUSDT`/`ETHUSDT`. -/
theorem c8_cache_short_circuit :
    ∀ (fileLines : List (List Char)) (r1 r2 : Except Unit (ℕ × List SymbolInfo)),
      get_usdt_pairs (some fileLines) r1 = Except.ok (fileLines.map pyStrip) ∧
        get_usdt_pairs (some fileLines) r1 = get_usdt_pairs (some fileLines) r2 ∧
        get_usdt_pairs (some ["BTCUSDT\n".toList, "ETHUSDT\n".toList]) r1
          = Except.ok ["BTCUSDT".toList, "ETHUSDT".toList] :=
  fun _ _ _ => ⟨rfl, rfl, rfl⟩

/-- C9 counterexample: `p20down` gives RSI 0, below the threshold, so a
match is found; the spot-price fetch answers HTTP 404, `get_current_price`
returns `None`, the f-string `{current_price:.4f}` raises `TypeError`, and
the blanket `except` prints an error line — no match line is emitted. -/
theorem c9_counterexample :
    process_symbol ("AAAUSDT") (Except.ok (200, p20down)) (Except.ok (404, 0))
        = Output.errorLine ("AAAUSDT") ∧
      emitsMatch (process_symbol ("AAAUSDT") (Except.ok (200, p20down)) (Except.ok (404, 0)))
        = false := by
  have hr : calculate_precise_rsi p20down RSI_PERIOD = 0 := by
    norm_num [p20down, calculate_precise_rsi, rs_final, emaFold, emaStepPair, avg_gain_seed,
      avg_loss_seed, seriesMean, gainSeries, lossSeries, seriesDiff, clipLower0, negClipUpper0,
      iloc, RSI_PERIOD, List.filterMap_cons, List.range']
  have h1 : fetch_and_calculate_rsi (Except.ok (200, p20down))
      = Except.ok (some (calculate_precise_rsi p20down RSI_PERIOD)) := rfl
  rw [hr] at h1
  have h : process_symbol ("AAAUSDT") (Except.ok (200, p20down)) (Except.ok (404, 0))
      = Output.errorLine ("AAAUSDT") := by
    unfold process_symbol
    rw [h1]
    dsimp only
    rw [if_pos (by norm_num [RSI_THRESHOLD] : (0 : ℚ) < RSI_THRESHOLD)]
    rfl
  exact ⟨h, by rw [h]; rfl⟩

/-- C9 (amended): when the computed RSI is below the threshold and the
subsequent spot-price fetch fails (non-200 status or transport exception),
the match line is NOT emitted; formatting the missing price raises
`TypeError`, the blanket `except` catches it, and an error diagnostic
naming the symbol is printed instead — the symbol is dropped from match
output. -/
theorem c9_price_failure_amended :
    ∀ (symbol : String) (klinesResp : Except Unit (ℕ × List ℚ)) (r : ℚ)
      (priceResp : Except Unit (ℕ × ℚ)),
      fetch_and_calculate_rsi klinesResp = Except.ok (some r) →
      r < RSI_THRESHOLD →
      priceFetchFails priceResp = true →
      process_symbol symbol klinesResp priceResp = Output.errorLine symbol := by
  intro symbol kl r pr h1 h2 h3
  unfold process_symbol
  rw [h1]
  dsimp only
  rw [if_pos h2]
  unfold priceFetchFails at h3
  rcases hp : get_current_price pr with e | o
  · simp [hp]
  · rcases o with _ | p
    · simp [hp]
    · rw [hp] at h3
      simp at h3

/-- C9 amended, instantiated: RSI 0 on `p20down`, spot-price fetch answers
HTTP 404. -/
theorem c9_price_failure_amended_witness :
    fetch_and_calculate_rsi (Except.ok (200, p20down)) = Except.ok (some 0) ∧
      (0 : ℚ) < RSI_THRESHOLD ∧
      priceFetchFails (Except.ok (404, 0)) = true ∧
      process_symbol ("BTCUSDT") (Except.ok (200, p20down)) (Except.ok (404, 0))
        = Output.errorLine ("BTCUSDT") := by
  have hr : calculate_precise_rsi p20down RSI_PERIOD = 0 := by
    norm_num [p20down, calculate_precise_rsi, rs_final, emaFold, emaStepPair, avg_gain_seed,
      avg_loss_seed, seriesMean, gainSeries, lossSeries, seriesDiff, clipLower0,
      negClipUpper0, iloc, RSI_PERIOD, List.filterMap_cons, List.range']
  have h1 : fetch_and_calculate_rsi (Except.ok (200, p20down))
      = Except.ok (some (calculate_precise_rsi p20down RSI_PERIOD)) := rfl
  rw [hr] at h1
  have h2 : (0 : ℚ) < RSI_THRESHOLD := by norm_num [RSI_THRESHOLD]
  have h3 : priceFetchFails (Except.ok (404, 0)) = true := rfl
  exact ⟨h1, h2, h3, c9_price_failure_amended ("BTCUSDT") _ 0 _ h1 h2 h3⟩

/-- C10: the SYMBOL override is stripped of surrounding whitespace and
uppercased before use — any single-coin run processes exactly
`upper(strip(SYMBOL))` — and an override that is empty or all whitespace
falls through to the full-universe scan. -/
theorem c10_symbol_override : ∀ s : List Char,
    (pyStrip s = [] → find_low_rsi_coins_mode (some s) = ScanMode.fullScan) ∧
      (∀ t, find_low_rsi_coins_mode (some s) = ScanMode.singleCoin t →
        t = pyUpper (pyStrip s)) := by
  intro s
  constructor
  · intro h
    unfold find_low_rsi_coins_mode
    simp [pyUpper, h]
  · intro t h
    unfold find_low_rsi_coins_mode at h
    by_cases hc : pyUpper (pyStrip ((some s).getD [])) = []
    · rw [if_pos hc] at h
      exact ScanMode.noConfusion h
    · rw [if_neg hc] at h
      exact (ScanMode.singleCoin.inj h).symm

/-- C10, instantiated: an all-whitespace override scans the full universe;
the override `" btcusdt "` is processed as `BTCUSDT`. -/
theorem c10_symbol_override_witness :
    pyStrip ("   ".toList) = [] ∧
      find_low_rsi_coins_mode (some ("   ".toList)) = ScanMode.fullScan ∧
      find_low_rsi_coins_mode (some (" btcusdt ".toList))
          = ScanMode.singleCoin ("BTCUSDT".toList) ∧
      "BTCUSDT".toList = pyUpper (pyStrip (" btcusdt ".toList)) := by
  have hm : find_low_rsi_coins_mode (some (" btcusdt ".toList))
      = ScanMode.singleCoin ("BTCUSDT".toList) := by decide
  exact ⟨by decide, (c10_symbol_override ("   ".toList)).1 (by decide), hm,
    (c10_symbol_override (" btcusdt ".toList)).2 ("BTCUSDT".toList) hm⟩
